import Mathlib

/-!
Verification of the authentication subsystem of the `appdoki-be` repository
against its natural-language specification.

The Go sources are shallowly embedded:
* `app/repositories/users.go` — the `User` model and `FindOrCreateUser`,
  modelled over an explicit store of rows (the `users` table) with a
  uniqueness constraint on `email` enforced by the insert.
* `app/auth.go` — the `Login` and `Token` handlers, modelled as pure
  functions of the request and of oracles for the identity-provider
  capabilities (code exchange, token verification, claim decoding) and for
  the repository; the handlers record which external calls they performed.
* concurrency of two `FindOrCreateUser` calls is modelled as an explicit
  interleaving semantics over a shared store (see `callStep`).
-/

namespace Appdoki

/-- The `User` model of `app/repositories/users.go`: fields `ID`, `Name`,
`Email`, `Picture`, `OIDCUserId` (db columns `id`, `name`, `email`,
`picture`, `oidc_userid`). -/
structure User where
  ID : String
  Name : String
  Email : String
  Picture : String
  OIDCUserId : String
deriving Repr, DecidableEq

/-- The `users` table: a list of stored rows (each a full `User` record as
the database holds it) together with the next store-assigned identifier. -/
structure Store where
  rows : List User
  nextId : Nat
deriving Repr, DecidableEq

/-- Database-level errors relevant to the embedded statements. -/
inductive DbErr where
  | uniqueViolation
  | noRows
  | otherErr
deriving Repr, DecidableEq

/-- Errors returned by the repository layer to its callers. -/
inductive RepoErr where
  | directoryError (e : DbErr)
deriving Repr, DecidableEq

/-- Modelled from the spec: the repository helper `parseError` is called in
`users.go` but its definition is not among the provided sources. Section 7
of the spec says persistence errors are surfaced to the caller as
`DirectoryError`; we model `parseError` as a wrapper that tags the
database error, never discarding it. -/
def parseError (e : DbErr) : RepoErr := .directoryError e

/-- True when some stored row has the given email. -/
def hasEmail (s : Store) (email : String) : Bool :=
  s.rows.any (fun r => r.Email = email)

/-- Number of stored rows with the given email. -/
def emailCount (s : Store) (email : String) : Nat :=
  (s.rows.filter (fun r => r.Email = email)).length

/-- The statement `SELECT id, name, email FROM users WHERE email = $1`
scanned into a fresh `&User{}` (`sqlx.GetContext`): the first matching row,
with only `ID`, `Name`, `Email` filled in; the unselected `Picture` and
`OIDCUserId` fields keep the Go zero value `""`. `none` models
`sql.ErrNoRows`. -/
def selectIdNameEmailByEmail (s : Store) (email : String) : Option User :=
  (s.rows.find? (fun r => r.Email = email)).map
    (fun r => { ID := r.ID, Name := r.Name, Email := r.Email, Picture := "", OIDCUserId := "" })

/-- The statement
`INSERT INTO users (name, email, oidc_userid) VALUES ($1, $2, $3)`:
fails with a uniqueness violation when a row with the email already exists,
otherwise appends one row carrying name, email and `oidc_userid`. The
`picture` column is not part of the statement, so the stored picture is the
column default, modelled as `""`. -/
def insertUser (s : Store) (name email oidc : String) : Except DbErr Store :=
  if hasEmail s email then
    .error .uniqueViolation
  else
    .ok { rows := s.rows ++ [{ ID := toString s.nextId, Name := name, Email := email,
                               Picture := "", OIDCUserId := oidc }],
          nextId := s.nextId + 1 }

/-- Result of a repository call that returns `(*User, error)` in Go:
`.ok (some u)` is `(u, nil)`, `.ok none` is `(nil, nil)`, and
`.error e` is `(nil, e)`. -/
abbrev RepoResult := Except RepoErr (Option User)

/-- Shallow embedding of `FindOrCreateUser` of `users.go`. The call runs in
a transaction (`BeginTxx` is modelled as succeeding) with a deferred
rollback, so the store is left unchanged on every path except a successful
commit. `raRows`/`raErr` are the values the driver returns for
`res.RowsAffected()` after a successful insert (on a real insert this is
`(1, nil)`), and `commitErr` is the outcome of `tx.Commit()`. Returns the
Go result together with the store as seen after the call. -/
def FindOrCreateUser (s : Store) (userData : User)
    (raRows : Int) (raErr : Option DbErr) (commitErr : Option DbErr) :
    RepoResult × Store :=
  match selectIdNameEmailByEmail s userData.Email with
  | some user => (.ok (some user), s)
  | none =>
    match insertUser s userData.Name userData.Email userData.OIDCUserId with
    | .error e => (.error (parseError e), s)
    | .ok s1 =>
      match raErr with
      | some e =>
        if raRows = 0 then (.ok none, s)
        else (.error (parseError e), s)
      | none =>
        match selectIdNameEmailByEmail s1 userData.Email with
        | some user =>
          match commitErr with
          | some e => (.error (parseError e), s)
          | none => (.ok (some user), s1)
        | none => (.error (parseError .noRows), s)

/-! ## Embedding of `app/auth.go` -/

/-- Errors of the identity-provider capability (code exchange, token
verification, claim decoding), per section 4.1 of the spec. Their exact
identity never matters to the handlers, which treat any failure alike. -/
inductive ProviderErr where
  | exchangeFailed
  | invalidToken
  | providerUnavailable
  | malformedClaims
deriving Repr, DecidableEq

/-- The `oauth2.Token` returned by `Exchange`, restricted to what `Token`
reads from it: `token.Extra("id_token").(string)`, which is `none` when the
extra is absent or not a string (the failed type assertion). -/
structure ExToken where
  idTokenExtra : Option String
deriving Repr, DecidableEq

/-- The claims struct decoded in `Token` from the verified identity token:
`email`, `name`, `picture`. -/
structure Claims where
  email : String
  name : String
  picture : String
deriving Repr, DecidableEq

/-- The verified `oidc.IDToken`, restricted to what `Token` reads from it:
its `Subject`. -/
structure IDToken where
  subject : String
deriving Repr, DecidableEq

/-- The external capabilities the `Token` handler calls, as deterministic
oracles: `GoogleOauth.Exchange`, `verifier.Verify`, `idToken.Claims`, and
the user repository `FindOrCreateUser`. -/
structure AuthEnv where
  exchange : String → Except ProviderErr ExToken
  verify : String → Except ProviderErr IDToken
  claims : IDToken → Except ProviderErr Claims
  findOrCreate : User → RepoResult

/-- An incoming HTTP request, restricted to what the auth handlers could
read: the `code` and `state` query parameters and the `oauthstate` cookie.
The `Token` handler in the source reads only `queryCode`. -/
structure Request where
  queryCode : String
  queryState : String
  cookieOauthState : Option String
deriving Repr, DecidableEq

/-- A response body: empty, `{URL: string}`, or `{Token: string}`. -/
inductive Body where
  | noBody
  | urlBody (url : String)
  | tokenBody (token : String)
deriving Repr, DecidableEq

/-- An HTTP response: status code and JSON body. -/
structure Response where
  status : Nat
  body : Body
deriving Repr, DecidableEq

/-- Modelled from the spec: the helper `respondInternalError` is called in
`auth.go` but is not among the provided sources; section 7 of the spec says
failures are surfaced as a generic internal-error response with no detail
in the body. -/
def respondInternalError : Response := { status := 500, body := .noBody }

/-- Modelled from the spec: the helper `respondJSON` is called in `auth.go`
but is not among the provided sources; section 6 of the spec says success
responses are JSON objects carrying the requested resource with the given
status. Here it is specialised to the `{Token: string}` shape passed at the
end of `Token`. -/
def respondJSONToken (t : String) (status : Nat) : Response :=
  { status := status, body := .tokenBody t }

/-- The outcome of running the `Token` handler: the response written, plus
a record of the external calls it performed, in order. -/
structure TokenTrace where
  response : Response
  exchangeCalls : List String
  findOrCreateCalls : List User
deriving Repr, DecidableEq

/-- Shallow embedding of the `Token` handler of `auth.go`. It reads the
`code` query parameter, exchanges it, extracts the raw identity token,
verifies it, decodes the claims, resolves the user, and on success responds
`{Token: rawIDToken}` with status 200; every failure short-circuits to
`respondInternalError`. The trace records each call to `Exchange` and to
`FindOrCreateUser` with its argument. -/
def Token (env : AuthEnv) (req : Request) : TokenTrace :=
  let code := req.queryCode
  match env.exchange code with
  | .error _ => { response := respondInternalError, exchangeCalls := [code], findOrCreateCalls := [] }
  | .ok tok =>
    match tok.idTokenExtra with
    | none => { response := respondInternalError, exchangeCalls := [code], findOrCreateCalls := [] }
    | some rawIDToken =>
      match env.verify rawIDToken with
      | .error _ => { response := respondInternalError, exchangeCalls := [code], findOrCreateCalls := [] }
      | .ok idToken =>
        match env.claims idToken with
        | .error _ => { response := respondInternalError, exchangeCalls := [code], findOrCreateCalls := [] }
        | .ok c =>
          let u : User := { ID := "", Name := c.name, Email := c.email,
                            Picture := c.picture, OIDCUserId := idToken.subject }
          match env.findOrCreate u with
          | .error _ => { response := respondInternalError, exchangeCalls := [code], findOrCreateCalls := [u] }
          | .ok _ => { response := respondJSONToken rawIDToken 200, exchangeCalls := [code], findOrCreateCalls := [u] }

/-- A `Set-Cookie` header value as the handlers build it: name, value and
expiry (seconds since an arbitrary epoch). -/
structure Cookie where
  name : String
  value : String
  expires : Nat
deriving Repr, DecidableEq

/-- The alphabet of `base64.URLEncoding`: `A-Z`, `a-z`, `0-9`, `-`, `_`. -/
def b64urlAlphabet : List Char :=
  "ABCDEFGHIJKLMNOPQRSTUVWXYZabcdefghijklmnopqrstuvwxyz0123456789-_".toList

/-- The character for a 6-bit group. -/
def b64urlChar (n : Nat) : Char := b64urlAlphabet.getD n '?'

/-- Go `base64.URLEncoding.EncodeToString` over a byte list: standard
base64 with the URL-safe alphabet and `=` padding. -/
def base64URLEncode : List Nat → List Char
  | [] => []
  | [a] => [b64urlChar (a / 4), b64urlChar (a % 4 * 16), '=', '=']
  | [a, b] => [b64urlChar (a / 4), b64urlChar (a % 4 * 16 + b / 16),
               b64urlChar (b % 16 * 4), '=']
  | a :: b :: c :: rest =>
      b64urlChar (a / 4) :: b64urlChar (a % 4 * 16 + b / 16) ::
      b64urlChar (b % 16 * 4 + c / 64) :: b64urlChar (c % 64) ::
      base64URLEncode rest

/-- A character that may appear in a URL-safe base64 token. -/
def isB64urlOrPad (c : Char) : Bool :=
  c ∈ b64urlAlphabet || c = '='

/-- Shallow embedding of `generateStateOauthCookie` of `auth.go`: the
expiry is now plus 365 days (in seconds), the state is the base64
URL-encoding of the 16 random bytes `b`, and the cookie is named
`oauthstate`. Returns the cookie set and the state. -/
def generateStateOauthCookie (now : Nat) (b : List Nat) : Cookie × String :=
  let expiration := now + 365 * 24 * 60 * 60
  let state := String.mk (base64URLEncode b)
  ({ name := "oauthstate", value := state, expires := expiration }, state)

/-- The outcome of running the `Login` handler: the cookies set and the
redirect issued. -/
structure LoginResult where
  cookies : List Cookie
  redirectURL : String
  redirectStatus : Nat
deriving Repr, DecidableEq

/-- Shallow embedding of the `Login` handler of `auth.go`:
`authCodeURL` is the `GoogleOauth.AuthCodeURL` capability (consent URL
embedding the given state), `now` the current time in seconds, `b` the 16
bytes read from `crypto/rand`. It sets the one state cookie and redirects
with `http.StatusTemporaryRedirect` (307). -/
def Login (authCodeURL : String → String) (now : Nat) (b : List Nat) : LoginResult :=
  let (cookie, oauthState) := generateStateOauthCookie now b
  { cookies := [cookie]
    redirectURL := authCodeURL oauthState
    redirectStatus := 307 }

/-! ## Interleaving semantics for concurrent `FindOrCreateUser` calls

Each call performs two database interactions that can interleave with other
transactions: the initial `SELECT` (which, under read-committed isolation,
sees only committed rows) and the `INSERT` (whose uniqueness check resolves
against the committed store once the competing transaction commits; the
in-transaction re-read of the freshly inserted row and the `Commit` are
atomic with the insert from the point of view of the other call, because
the conflicting inserter is blocked on the unique index until commit). The
oracles `RowsAffected` and `Commit` are taken to behave normally, which is
what they do on a real driver after a successful insert. -/

instance : DecidableEq RepoResult := fun x y =>
  match x, y with
  | .ok a, .ok b =>
      if h : a = b then .isTrue (by rw [h]) else .isFalse (by intro hc; cases hc; exact h rfl)
  | .ok _, .error _ => .isFalse (by intro hc; cases hc)
  | .error _, .ok _ => .isFalse (by intro hc; cases hc)
  | .error a, .error b =>
      if h : a = b then .isTrue (by rw [h]) else .isFalse (by intro hc; cases hc; exact h rfl)

/-- The phase a single `FindOrCreateUser` call is in: about to run the
initial select, about to insert (the select found nothing), or finished
with its Go result. -/
inductive CallPhase where
  | start
  | needInsert
  | done (res : RepoResult)
deriving Repr, DecidableEq

/-- One atomic step of a `FindOrCreateUser` call for user data `u` against
the shared store: from `start`, run the initial select (found ⇒ finish with
that user, store untouched); from `needInsert`, run the insert (uniqueness
violation ⇒ finish with `parseError` of it, store untouched by rollback;
success ⇒ re-read the inserted row and commit, publishing the new store). -/
def callStep (s : Store) (u : User) : CallPhase → CallPhase × Store
  | .start =>
      match selectIdNameEmailByEmail s u.Email with
      | some user => (.done (.ok (some user)), s)
      | none => (.needInsert, s)
  | .needInsert =>
      match insertUser s u.Name u.Email u.OIDCUserId with
      | .error e => (.done (.error (parseError e)), s)
      | .ok s1 =>
          match selectIdNameEmailByEmail s1 u.Email with
          | some user => (.done (.ok (some user)), s1)
          | none => (.done (.error (parseError .noRows)), s)
  | .done r => (.done r, s)

/-- The joint state of two concurrent calls sharing one store. -/
structure TwoCalls where
  store : Store
  a : CallPhase
  b : CallPhase
deriving Repr, DecidableEq

/-- Scheduler step: `true` lets call A (for `uA`) take its next atomic
step, `false` lets call B (for `uB`). -/
def stepTwo (uA uB : User) (t : TwoCalls) (pick : Bool) : TwoCalls :=
  if pick then
    let (ph, s) := callStep t.store uA t.a
    { t with a := ph, store := s }
  else
    let (ph, s) := callStep t.store uB t.b
    { t with b := ph, store := s }

/-- Run the two calls under a schedule (a list of scheduler choices). -/
def runSched (uA uB : User) (t : TwoCalls) : List Bool → TwoCalls
  | [] => t
  | pick :: rest => runSched uA uB (stepTwo uA uB t pick) rest

/-- Whether a call has finished. -/
def CallPhase.isDone : CallPhase → Bool
  | .done _ => true
  | _ => false

/-- Whether a call has finished successfully with some user. -/
def CallPhase.isSuccess : CallPhase → Bool
  | .done (.ok (some _)) => true
  | _ => false

/-- The record a select of `id`, `name`, `email` scans out of a stored
row: unselected fields are the Go zero value `""`. -/
def projRow (r : User) : User :=
  { ID := r.ID, Name := r.Name, Email := r.Email, Picture := "", OIDCUserId := "" }

/-- Per-call invariant of the two-call interleaving, relative to the
shared email `e` and the current store: a finished call either returned
the projection of a stored row with email `e`, or surfaced the uniqueness
violation of its duplicate insert — and in the latter case a row with the
email does exist. A call never finishes `(nil, nil)` in this race. -/
def phaseInv (e : String) (s : Store) : CallPhase → Prop
  | .start => True
  | .needInsert => True
  | .done (.ok (some u)) => ∃ r ∈ s.rows, r.Email = e ∧ u = projRow r
  | .done (.ok none) => False
  | .done (.error err) => err = parseError .uniqueViolation ∧ hasEmail s e = true

/-- Joint invariant of two interleaved `FindOrCreateUser` calls for the
same email `e`, starting from a store with no row for `e`: at most one row
with the email ever exists, each call satisfies its per-call invariant,
and as soon as a row with the email exists some call has already finished
successfully (the row's creator, or a call that found it). -/
def Inv (e : String) (t : TwoCalls) : Prop :=
  emailCount t.store e ≤ 1 ∧
  phaseInv e t.store t.a ∧
  phaseInv e t.store t.b ∧
  (hasEmail t.store e = true → t.a.isSuccess = true ∨ t.b.isSuccess = true)

/-- A concrete incoming identity for the concurrency scenarios. -/
def uAlice : User := { ID := "", Name := "Alice", Email := "a@x.com", Picture := "picA", OIDCUserId := "subA" }

/-- A second concrete incoming identity carrying the same email. -/
def uBob : User := { ID := "", Name := "Bob", Email := "a@x.com", Picture := "picB", OIDCUserId := "subB" }

/-- The racing schedule: both calls run their select before either
inserts; call A then inserts and commits first. -/
def raceSched : List Bool := [true, false, true, false]

/-- A provider environment in which every capability succeeds; used to
exercise the success path of `Token` on concrete inputs. -/
def envOk : AuthEnv where
  exchange := fun _ => .ok { idTokenExtra := some "raw-token-1" }
  verify := fun _ => .ok { subject := "sub-1" }
  claims := fun _ => .ok { email := "a@x.com", name := "Alice", picture := "pic" }
  findOrCreate := fun _ => .ok none

/-- A provider environment in which every capability fails; used to show
the exchange is attempted even on a state-mismatched request. -/
def envFail : AuthEnv where
  exchange := fun _ => .error .exchangeFailed
  verify := fun _ => .error .invalidToken
  claims := fun _ => .error .malformedClaims
  findOrCreate := fun _ => .error (.directoryError .otherErr)

/-- A concrete callback request whose query `state` differs from the state
held by the `oauthstate` cookie. -/
def mismatchedReq : Request :=
  { queryCode := "code-1", queryState := "foo", cookieOauthState := some "bar" }

/-! ## Lemmas about the select projection -/

/-- Any record produced by the embedded
`SELECT id, name, email FROM users WHERE email = $1` statement has empty
`Picture` and `OIDCUserId` fields: they are not among the selected columns,
so they keep the Go zero value of the fresh `&User{}`. -/
theorem selectIdNameEmailByEmail_proj {s : Store} {e : String} {w : User}
    (h : selectIdNameEmailByEmail s e = some w) :
    w.Picture = "" ∧ w.OIDCUserId = "" := by
  unfold selectIdNameEmailByEmail at h
  cases hf : s.rows.find? (fun r => r.Email = e) with
  | none => rw [hf] at h; cases h
  | some r =>
      rw [hf] at h
      simp only [Option.map_some', Option.some.injEq] at h
      subst h
      exact ⟨rfl, rfl⟩

/-- The embedded select succeeds exactly when some stored row has the
email, and the record it returns is the projection of such a row. -/
theorem selectIdNameEmailByEmail_of_hasEmail {s : Store} {e : String}
    (h : hasEmail s e = true) :
    ∃ r ∈ s.rows, r.Email = e ∧
      selectIdNameEmailByEmail s e =
        some { ID := r.ID, Name := r.Name, Email := r.Email, Picture := "", OIDCUserId := "" } := by
  unfold hasEmail at h
  rw [List.any_eq_true] at h
  obtain ⟨x, hx, hpx⟩ := h
  have hsome : (s.rows.find? (fun r => decide (r.Email = e))).isSome := by
    rw [List.find?_isSome]
    exact ⟨x, hx, hpx⟩
  obtain ⟨r, hr⟩ := Option.isSome_iff_exists.mp hsome
  have hmem : r ∈ s.rows := List.mem_of_find?_eq_some hr
  have hre : r.Email = e := by
    have := List.find?_some hr
    simpa using this
  refine ⟨r, hmem, hre, ?_⟩
  unfold selectIdNameEmailByEmail
  rw [hr]
  rfl

/-- When no stored row has the email, the embedded select returns
`sql.ErrNoRows` (modelled as `none`). -/
theorem selectIdNameEmailByEmail_of_not_hasEmail {s : Store} {e : String}
    (h : hasEmail s e = false) :
    selectIdNameEmailByEmail s e = none := by
  unfold hasEmail at h
  unfold selectIdNameEmailByEmail
  have hnone : s.rows.find? (fun r => r.Email = e) = none := by
    apply List.find?_eq_none.mpr
    intro x hx
    simp only [List.any_eq_false] at h
    simpa using h x hx
  rw [hnone]
  rfl

/-! ## Claims about `FindOrCreateUser` run in isolation -/

/-- C4: for every call to `FindOrCreateUser` with an email for which a
record already exists, the stored record (indeed the whole store) is left
entirely unchanged — the incoming name, picture and external subject are
not applied — and the call returns that existing stored record (as
projected by the select of `id`, `name`, `email`). -/
theorem findOrCreateUser_existing_unchanged (s : Store) (u : User)
    (raRows : Int) (raErr commitErr : Option DbErr)
    (hex : hasEmail s u.Email = true) :
    ∃ r ∈ s.rows, r.Email = u.Email ∧
      FindOrCreateUser s u raRows raErr commitErr =
        (.ok (some { ID := r.ID, Name := r.Name, Email := r.Email,
                     Picture := "", OIDCUserId := "" }), s) := by
  obtain ⟨r, hmem, hre, hsel⟩ := selectIdNameEmailByEmail_of_hasEmail hex
  refine ⟨r, hmem, hre, ?_⟩
  unfold FindOrCreateUser
  rw [hsel]

/-- C4 witness: a concrete store holding the record for `a@x.com`, on which
the call with differing incoming name, picture and subject changes nothing
and returns the stored record. -/
theorem findOrCreateUser_existing_unchanged_witness :
    hasEmail ⟨[⟨"7", "Old Name", "a@x.com", "old-pic", "old-sub"⟩], 8⟩ "a@x.com" = true ∧
    ∃ r ∈ (⟨[⟨"7", "Old Name", "a@x.com", "old-pic", "old-sub"⟩], 8⟩ : Store).rows,
      r.Email = "a@x.com" ∧
      FindOrCreateUser ⟨[⟨"7", "Old Name", "a@x.com", "old-pic", "old-sub"⟩], 8⟩
          ⟨"", "New Name", "a@x.com", "new-pic", "new-sub"⟩ 1 none none =
        (.ok (some { ID := r.ID, Name := r.Name, Email := r.Email,
                     Picture := "", OIDCUserId := "" }),
         ⟨[⟨"7", "Old Name", "a@x.com", "old-pic", "old-sub"⟩], 8⟩) :=
  ⟨by decide,
   findOrCreateUser_existing_unchanged
     ⟨[⟨"7", "Old Name", "a@x.com", "old-pic", "old-sub"⟩], 8⟩
     ⟨"", "New Name", "a@x.com", "new-pic", "new-sub"⟩ 1 none none (by decide)⟩

/-- C5 counterexample: from an empty store, the first-time call for
`a@x.com` with incoming picture `"pic"` inserts a record whose stored
picture is `""`, not the incoming `"pic"`: the insert statement does not
carry the picture, refuting the claim that the new record carries the
incoming name, email, picture and external subject. -/
theorem findOrCreateUser_insert_drops_picture :
    (FindOrCreateUser ⟨[], 0⟩ ⟨"", "Alice", "a@x.com", "pic", "subA"⟩ 1 none none).2.rows =
      [{ ID := "0", Name := "Alice", Email := "a@x.com", Picture := "", OIDCUserId := "subA" }] ∧
    ¬ ("" = "pic") := by
  exact ⟨rfl, by decide⟩

/-- C5 (amended): for every call with an email for which no record exists
(and a normally-behaving driver: `RowsAffected` and `Commit` succeed),
exactly one new record is inserted, carrying the incoming name, email and
external subject but not the picture (the stored picture is the column
default `""`), and the call returns that record as re-read by the select of
`id`, `name`, `email`, including the store-assigned identifier. -/
theorem findOrCreateUser_insert_new (s : Store) (u : User) (raRows : Int)
    (hnew : hasEmail s u.Email = false) :
    FindOrCreateUser s u raRows none none =
      (.ok (some { ID := toString s.nextId, Name := u.Name, Email := u.Email,
                   Picture := "", OIDCUserId := "" }),
       { rows := s.rows ++ [{ ID := toString s.nextId, Name := u.Name, Email := u.Email,
                              Picture := "", OIDCUserId := u.OIDCUserId }],
         nextId := s.nextId + 1 }) := by
  have hsel := selectIdNameEmailByEmail_of_not_hasEmail hnew
  unfold FindOrCreateUser
  rw [hsel]
  unfold insertUser
  rw [hnew]
  simp only [Bool.false_eq_true, if_false]
  have hsel2 : selectIdNameEmailByEmail
      { rows := s.rows ++ [{ ID := toString s.nextId, Name := u.Name, Email := u.Email,
                             Picture := "", OIDCUserId := u.OIDCUserId }],
        nextId := s.nextId + 1 } u.Email =
      some { ID := toString s.nextId, Name := u.Name, Email := u.Email,
             Picture := "", OIDCUserId := "" } := by
    unfold selectIdNameEmailByEmail
    rw [List.find?_append]
    rw [List.find?_eq_none.mpr]
    · simp
    · intro x hx
      unfold hasEmail at hnew
      simp only [List.any_eq_false] at hnew
      simpa using hnew x hx
  rw [hsel2]

/-- C5 witness: the amended statement evaluated at the concrete first-time
call for `a@x.com`. -/
theorem findOrCreateUser_insert_new_witness :
    hasEmail ⟨[], 0⟩ "a@x.com" = false ∧
    FindOrCreateUser ⟨[], 0⟩ ⟨"", "Alice", "a@x.com", "pic", "subA"⟩ 1 none none =
      (.ok (some { ID := "0", Name := "Alice", Email := "a@x.com",
                   Picture := "", OIDCUserId := "" }),
       { rows := [{ ID := "0", Name := "Alice", Email := "a@x.com",
                    Picture := "", OIDCUserId := "subA" }],
         nextId := 1 }) :=
  ⟨by decide, findOrCreateUser_insert_new ⟨[], 0⟩ ⟨"", "Alice", "a@x.com", "pic", "subA"⟩ 1 (by decide)⟩

/-- C9: there is an execution of `FindOrCreateUser` returning `(nil, nil)`
— neither a record nor a failure. Concretely: from an empty store, the
select misses, the insert succeeds, and the driver reports
`RowsAffected() = (0, err)` with a non-nil error; the code then takes the
`rows == 0` branch and returns `nil, nil` (the transaction is rolled back,
leaving the store unchanged). -/
theorem findOrCreateUser_nil_nil :
    FindOrCreateUser ⟨[], 0⟩ ⟨"", "Alice", "a@x.com", "pic", "subA"⟩ 0 (some .otherErr) none =
      (.ok none, ⟨[], 0⟩) := by
  rfl

/-- C10: every call to `FindOrCreateUser` that returns a non-nil user
returns a record whose `Picture` and `OIDCUserId` fields are the empty
string, whatever the incoming identity held: both the lookup and the
post-insert re-read select only `id`, `name` and `email`. -/
theorem findOrCreateUser_result_proj (s : Store) (u : User)
    (raRows : Int) (raErr commitErr : Option DbErr) (w : User) (s1 : Store)
    (h : FindOrCreateUser s u raRows raErr commitErr = (.ok (some w), s1)) :
    w.Picture = "" ∧ w.OIDCUserId = "" := by
  unfold FindOrCreateUser at h
  cases hsel : selectIdNameEmailByEmail s u.Email with
  | some user =>
      rw [hsel] at h
      simp only [Prod.mk.injEq, Except.ok.injEq, Option.some.injEq] at h
      obtain ⟨hw, -⟩ := h
      subst hw
      exact selectIdNameEmailByEmail_proj hsel
  | none =>
      rw [hsel] at h
      cases hins : insertUser s u.Name u.Email u.OIDCUserId with
      | error e => rw [hins] at h; simp at h
      | ok s2 =>
          rw [hins] at h
          cases raErr with
          | some e =>
              simp only at h
              split at h <;> simp at h
          | none =>
              simp only at h
              cases hsel2 : selectIdNameEmailByEmail s2 u.Email with
              | none => rw [hsel2] at h; simp at h
              | some user =>
                  rw [hsel2] at h
                  cases commitErr with
                  | some e => simp at h
                  | none =>
                      simp only [Prod.mk.injEq, Except.ok.injEq, Option.some.injEq] at h
                      obtain ⟨hw, -⟩ := h
                      subst hw
                      exact selectIdNameEmailByEmail_proj hsel2

/-! ## Claims about the `Login` and `Token` handlers -/

/-- Every six-bit group is encoded to a character of the URL-safe base64
alphabet. -/
theorem b64urlChar_mem {n : Nat} (h : n < 64) : b64urlChar n ∈ b64urlAlphabet := by
  unfold b64urlChar
  have hlen : n < b64urlAlphabet.length := by
    have : b64urlAlphabet.length = 64 := by rfl
    omega
  rw [List.getD_eq_getElem _ _ hlen]
  exact List.getElem_mem hlen

/-- Every six-bit group is encoded to a URL-safe character. -/
theorem isB64urlOrPad_b64urlChar {n : Nat} (h : n < 64) :
    isB64urlOrPad (b64urlChar n) = true := by
  unfold isB64urlOrPad
  simp [b64urlChar_mem h]

/-- Go base64 URL-encoding of a byte list produces only URL-safe
characters (`A-Z`, `a-z`, `0-9`, `-`, `_`) and the `=` padding. -/
theorem base64URLEncode_urlSafe :
    ∀ (bs : List Nat), (∀ x ∈ bs, x < 256) →
      ∀ c ∈ base64URLEncode bs, isB64urlOrPad c = true := by
  intro bs
  induction bs using base64URLEncode.induct with
  | case1 =>
      intro _ c hc
      simp [base64URLEncode] at hc
  | case2 a =>
      intro h c hc
      have ha : a < 256 := h a (by simp)
      simp only [base64URLEncode, List.mem_cons, List.not_mem_nil, or_false] at hc
      rcases hc with rfl | rfl | rfl | rfl
      · exact isB64urlOrPad_b64urlChar (by omega)
      · exact isB64urlOrPad_b64urlChar (by omega)
      · decide
      · decide
  | case3 a b =>
      intro h c hc
      have ha : a < 256 := h a (by simp)
      have hb : b < 256 := h b (by simp)
      simp only [base64URLEncode, List.mem_cons, List.not_mem_nil, or_false] at hc
      rcases hc with rfl | rfl | rfl | rfl
      · exact isB64urlOrPad_b64urlChar (by omega)
      · exact isB64urlOrPad_b64urlChar (by omega)
      · exact isB64urlOrPad_b64urlChar (by omega)
      · decide
  | case4 a b cc rest ih =>
      intro h ch hch
      have ha : a < 256 := h a (by simp)
      have hb : b < 256 := h b (by simp)
      have hc : cc < 256 := h cc (by simp)
      simp only [base64URLEncode, List.mem_cons] at hch
      rcases hch with rfl | rfl | rfl | rfl | hch
      · exact isB64urlOrPad_b64urlChar (by omega)
      · exact isB64urlOrPad_b64urlChar (by omega)
      · exact isB64urlOrPad_b64urlChar (by omega)
      · exact isB64urlOrPad_b64urlChar (by omega)
      · exact ih (fun x hx => h x (by simp [hx])) ch hch

/-- C7: every login initiation with 16 random bytes sets exactly one
cookie, named `oauthstate`, whose value is the base64 URL-encoding of
those bytes (URL-safe characters only), whose expiry is one year (365
days) from issuance, and redirects (307) the caller to the provider
consent URL built from that same state value. -/
theorem Login_state_cookie (authCodeURL : String → String) (now : Nat) (b : List Nat)
    (_hlen : b.length = 16) (hbytes : ∀ x ∈ b, x < 256) :
    (Login authCodeURL now b).cookies =
      [{ name := "oauthstate", value := String.mk (base64URLEncode b),
         expires := now + 365 * 24 * 60 * 60 }] ∧
    (∀ c ∈ base64URLEncode b, isB64urlOrPad c = true) ∧
    (Login authCodeURL now b).redirectURL = authCodeURL (String.mk (base64URLEncode b)) ∧
    (Login authCodeURL now b).redirectStatus = 307 := by
  refine ⟨rfl, base64URLEncode_urlSafe b hbytes, rfl, rfl⟩

/-- C7 witness: the cookie/redirect shape at a concrete 16-byte random
value and time zero, with the identity consent-URL builder. -/
theorem Login_state_cookie_witness :
    ([0, 1, 2, 3, 4, 5, 6, 7, 8, 9, 10, 11, 12, 13, 14, 255] : List Nat).length = 16 ∧
    (∀ x ∈ ([0, 1, 2, 3, 4, 5, 6, 7, 8, 9, 10, 11, 12, 13, 14, 255] : List Nat), x < 256) ∧
    ((Login (fun s => s) 0 [0, 1, 2, 3, 4, 5, 6, 7, 8, 9, 10, 11, 12, 13, 14, 255]).cookies =
      [{ name := "oauthstate",
         value := String.mk (base64URLEncode [0, 1, 2, 3, 4, 5, 6, 7, 8, 9, 10, 11, 12, 13, 14, 255]),
         expires := 0 + 365 * 24 * 60 * 60 }] ∧
     (∀ c ∈ base64URLEncode [0, 1, 2, 3, 4, 5, 6, 7, 8, 9, 10, 11, 12, 13, 14, 255],
        isB64urlOrPad c = true) ∧
     (Login (fun s => s) 0 [0, 1, 2, 3, 4, 5, 6, 7, 8, 9, 10, 11, 12, 13, 14, 255]).redirectURL =
       (fun s => s) (String.mk (base64URLEncode [0, 1, 2, 3, 4, 5, 6, 7, 8, 9, 10, 11, 12, 13, 14, 255])) ∧
     (Login (fun s => s) 0 [0, 1, 2, 3, 4, 5, 6, 7, 8, 9, 10, 11, 12, 13, 14, 255]).redirectStatus = 307) :=
  ⟨by decide, by decide,
   Login_state_cookie (fun s => s) 0 [0, 1, 2, 3, 4, 5, 6, 7, 8, 9, 10, 11, 12, 13, 14, 255]
     (by decide) (by decide)⟩

/-- C2: the `Token` callback handler performs no state comparison at all.
On the concrete request whose query `state` is `"foo"` while the issued
`oauthstate` cookie holds `"bar"` (a mismatch), the handler still invokes
the authorization-code exchange with the presented code, instead of
rejecting the request before any exchange as the spec requires. -/
theorem Token_state_mismatch_still_exchanges :
    mismatchedReq.queryState = "foo" ∧
    mismatchedReq.cookieOauthState = some "bar" ∧
    ¬ (some mismatchedReq.queryState = mismatchedReq.cookieOauthState) ∧
    (Token envFail mismatchedReq).exchangeCalls = [mismatchedReq.queryCode] :=
  ⟨rfl, rfl, by decide, rfl⟩

/-- C6: the `Token` handler invokes `FindOrCreateUser` only after the
exchange succeeded, the raw identity token was present, its verification
succeeded and its claims decoded; the single call it then makes carries
the decoded name, email, picture and token subject. Contrapositively, if
any of those steps fails, `FindOrCreateUser` is never called. -/
theorem Token_resolution_gated (env : AuthEnv) (req : Request)
    (hne : (Token env req).findOrCreateCalls ≠ []) :
    ∃ tok raw idToken c,
      env.exchange req.queryCode = .ok tok ∧
      tok.idTokenExtra = some raw ∧
      env.verify raw = .ok idToken ∧
      env.claims idToken = .ok c ∧
      (Token env req).findOrCreateCalls =
        [{ ID := "", Name := c.name, Email := c.email, Picture := c.picture,
           OIDCUserId := idToken.subject }] := by
  cases hex : env.exchange req.queryCode with
  | error e => simp [Token, hex] at hne
  | ok tok =>
    cases hext : tok.idTokenExtra with
    | none => simp [Token, hex, hext] at hne
    | some raw =>
      cases hver : env.verify raw with
      | error e => simp [Token, hex, hext, hver] at hne
      | ok idToken =>
        cases hcl : env.claims idToken with
        | error e => simp [Token, hex, hext, hver, hcl] at hne
        | ok c =>
          refine ⟨tok, raw, idToken, c, rfl, hext, hver, hcl, ?_⟩
          cases hfc : env.findOrCreate
              { ID := "", Name := c.name, Email := c.email, Picture := c.picture,
                OIDCUserId := idToken.subject } with
          | error e => simp [Token, hex, hext, hver, hcl, hfc]
          | ok r => simp [Token, hex, hext, hver, hcl, hfc]

/-- C6 witness: in the all-success environment the handler resolves the
user, and the theorem recovers the successful chain of steps. -/
theorem Token_resolution_gated_witness :
    (Token envOk mismatchedReq).findOrCreateCalls ≠ [] ∧
    ∃ tok raw idToken c,
      envOk.exchange mismatchedReq.queryCode = .ok tok ∧
      tok.idTokenExtra = some raw ∧
      envOk.verify raw = .ok idToken ∧
      envOk.claims idToken = .ok c ∧
      (Token envOk mismatchedReq).findOrCreateCalls =
        [{ ID := "", Name := c.name, Email := c.email, Picture := c.picture,
           OIDCUserId := idToken.subject }] :=
  ⟨by decide, Token_resolution_gated envOk mismatchedReq (by decide)⟩

/-- C8: every `Token` run that responds with status 200 responds with the
JSON body `{Token: rawIDToken}` where `rawIDToken` is exactly the raw
identity token obtained from the exchange and successfully verified. -/
theorem Token_success_response (env : AuthEnv) (req : Request)
    (h : (Token env req).response.status = 200) :
    ∃ tok raw idToken,
      env.exchange req.queryCode = .ok tok ∧
      tok.idTokenExtra = some raw ∧
      env.verify raw = .ok idToken ∧
      (Token env req).response = respondJSONToken raw 200 := by
  cases hex : env.exchange req.queryCode with
  | error e => simp [Token, hex, respondInternalError] at h
  | ok tok =>
    cases hext : tok.idTokenExtra with
    | none => simp [Token, hex, hext, respondInternalError] at h
    | some raw =>
      cases hver : env.verify raw with
      | error e => simp [Token, hex, hext, hver, respondInternalError] at h
      | ok idToken =>
        cases hcl : env.claims idToken with
        | error e => simp [Token, hex, hext, hver, hcl, respondInternalError] at h
        | ok c =>
          refine ⟨tok, raw, idToken, rfl, hext, hver, ?_⟩
          cases hfc : env.findOrCreate
              { ID := "", Name := c.name, Email := c.email, Picture := c.picture,
                OIDCUserId := idToken.subject } with
          | error e => simp [Token, hex, hext, hver, hcl, hfc, respondInternalError] at h
          | ok r => simp [Token, hex, hext, hver, hcl, hfc]

/-- C8 witness: in the all-success environment the response has status
200, and the theorem identifies it as the `{Token: raw}` body for the
exchanged and verified raw identity token. -/
theorem Token_success_response_witness :
    (Token envOk mismatchedReq).response.status = 200 ∧
    ∃ tok raw idToken,
      envOk.exchange mismatchedReq.queryCode = .ok tok ∧
      tok.idTokenExtra = some raw ∧
      envOk.verify raw = .ok idToken ∧
      (Token envOk mismatchedReq).response = respondJSONToken raw 200 :=
  ⟨by decide, Token_success_response envOk mismatchedReq (by decide)⟩

/-- C10 witness: the projection property at a concrete call that returns a
user. -/
theorem findOrCreateUser_result_proj_witness :
    ({ ID := "0", Name := "Alice", Email := "a@x.com", Picture := "", OIDCUserId := "" } : User).Picture = "" ∧
    ({ ID := "0", Name := "Alice", Email := "a@x.com", Picture := "", OIDCUserId := "" } : User).OIDCUserId = "" :=
  findOrCreateUser_result_proj ⟨[], 0⟩ ⟨"", "Alice", "a@x.com", "pic", "subA"⟩ 1 none none
    { ID := "0", Name := "Alice", Email := "a@x.com", Picture := "", OIDCUserId := "" }
    ⟨[⟨"0", "Alice", "a@x.com", "", "subA"⟩], 1⟩ (by rfl)

/-! ## Lemmas for the two-call interleaving -/

/-- A successful embedded select returns the projection of some stored row
with the email. -/
theorem selectIdNameEmailByEmail_eq_some {s : Store} {e : String} {w : User}
    (h : selectIdNameEmailByEmail s e = some w) :
    ∃ r ∈ s.rows, r.Email = e ∧ w = projRow r := by
  unfold selectIdNameEmailByEmail at h
  cases hf : s.rows.find? (fun r => r.Email = e) with
  | none => rw [hf] at h; cases h
  | some r =>
      rw [hf] at h
      simp only [Option.map_some', Option.some.injEq] at h
      refine ⟨r, List.mem_of_find?_eq_some hf, ?_, h.symm⟩
      have := List.find?_some hf
      simpa using this

/-- A store without the email has no row counted for it. -/
theorem hasEmail_false_emailCount {s : Store} {e : String}
    (h : hasEmail s e = false) : emailCount s e = 0 := by
  unfold hasEmail at h
  unfold emailCount
  simp only [List.any_eq_false] at h
  rw [List.filter_eq_nil_iff.mpr h]
  rfl

/-- A store with the email counts at least one row for it. -/
theorem hasEmail_true_emailCount_pos {s : Store} {e : String}
    (h : hasEmail s e = true) : 0 < emailCount s e := by
  unfold hasEmail at h
  rw [List.any_eq_true] at h
  obtain ⟨x, hx, hpx⟩ := h
  unfold emailCount
  rw [List.length_pos]
  intro hnil
  have : x ∈ s.rows.filter (fun r => r.Email = e) := List.mem_filter.mpr ⟨hx, hpx⟩
  simp [hnil] at this

/-- A stored row with the email makes `hasEmail` true. -/
theorem hasEmail_of_mem {s : Store} {e : String} {r : User}
    (hmem : r ∈ s.rows) (hre : r.Email = e) : hasEmail s e = true := by
  unfold hasEmail
  rw [List.any_eq_true]
  exact ⟨r, hmem, by simpa using hre⟩

/-- Appending a row adds one to the count when the row has the email. -/
theorem emailCount_append (l : List User) (n m : Nat) (x : User) (e : String) :
    emailCount ⟨l ++ [x], n⟩ e =
      emailCount ⟨l, m⟩ e + (if x.Email = e then 1 else 0) := by
  unfold emailCount
  simp only [List.filter_append, List.length_append]
  by_cases hx : x.Email = e <;> simp [hx]

/-- Inserting a row for a previously-absent email makes the select find
exactly that row. -/
theorem select_append_new (l : List User) (n : Nat) (x : User) (e : String)
    (hno : ∀ r ∈ l, ¬ (r.Email = e)) (hx : x.Email = e) :
    selectIdNameEmailByEmail ⟨l ++ [x], n⟩ e = some (projRow x) := by
  unfold selectIdNameEmailByEmail
  have h1 : l.find? (fun r => r.Email = e) = none := by
    apply List.find?_eq_none.mpr
    intro r hr
    simpa using hno r hr
  have h2 : [x].find? (fun r => r.Email = e) = some x :=
    List.find?_cons_of_pos _ (by simpa using hx)
  simp only [List.find?_append, h1, Option.none_orElse, h2, Option.map_some']
  rfl

/-- A duplicate insert is a uniqueness violation. -/
theorem insertUser_dup {s : Store} {nm em oid : String}
    (h : hasEmail s em = true) :
    insertUser s nm em oid = .error .uniqueViolation := by
  unfold insertUser
  rw [h]
  rfl

/-- A first insert for the email appends exactly one row carrying the
name, the email and the external subject (and the default empty picture),
assigning the next identifier. -/
theorem insertUser_ok {s : Store} {nm em oid : String}
    (h : hasEmail s em = false) :
    insertUser s nm em oid =
      .ok { rows := s.rows ++ [{ ID := toString s.nextId, Name := nm, Email := em,
                                 Picture := "", OIDCUserId := oid }],
            nextId := s.nextId + 1 } := by
  unfold insertUser
  rw [h]
  rfl

/-- The per-call invariant survives the growth of the store by one row. -/
theorem phaseInv_append (e : String) (s : Store) (x : User) (n : Nat) (ph : CallPhase)
    (h : phaseInv e s ph) : phaseInv e ⟨s.rows ++ [x], n⟩ ph := by
  cases ph with
  | start => trivial
  | needInsert => trivial
  | done r =>
      cases r with
      | ok o =>
          cases o with
          | none => exact h.elim
          | some u =>
              obtain ⟨row, hmem, hre, hu⟩ := h
              exact ⟨row, by simp [hmem], hre, hu⟩
      | error err =>
          obtain ⟨h1, h2⟩ := h
          refine ⟨h1, ?_⟩
          unfold hasEmail at h2 ⊢
          simp [List.any_append, h2]

/-- A finished phase is a `done` phase. -/
theorem isDone_exists {ph : CallPhase} (h : ph.isDone = true) : ∃ r, ph = .done r := by
  cases ph with
  | start => simp [CallPhase.isDone] at h
  | needInsert => simp [CallPhase.isDone] at h
  | done r => exact ⟨r, rfl⟩

/-- One atomic step of the active call preserves the joint invariant (the
passive call's phase is untouched). -/
theorem Inv_core_step (e : String) (u : User) (s : Store) (pa pb : CallPhase)
    (hue : u.Email = e)
    (hcount : emailCount s e ≤ 1)
    (hpa : phaseInv e s pa) (hpb : phaseInv e s pb)
    (hsucc : hasEmail s e = true → pa.isSuccess = true ∨ pb.isSuccess = true) :
    emailCount (callStep s u pa).2 e ≤ 1 ∧
    phaseInv e (callStep s u pa).2 (callStep s u pa).1 ∧
    phaseInv e (callStep s u pa).2 pb ∧
    (hasEmail (callStep s u pa).2 e = true →
      (callStep s u pa).1.isSuccess = true ∨ pb.isSuccess = true) := by
  subst hue
  cases pa with
  | start =>
      cases hsel : selectIdNameEmailByEmail s u.Email with
      | some w =>
          have hstep : callStep s u .start = (.done (.ok (some w)), s) := by
            unfold callStep; rw [hsel]
          rw [hstep]
          obtain ⟨r, hr, hre, hw⟩ := selectIdNameEmailByEmail_eq_some hsel
          exact ⟨hcount, ⟨r, hr, hre, hw⟩, hpb, fun _ => Or.inl rfl⟩
      | none =>
          have hstep : callStep s u .start = (.needInsert, s) := by
            unfold callStep; rw [hsel]
          rw [hstep]
          refine ⟨hcount, trivial, hpb, fun h => ?_⟩
          rcases hsucc h with ha | hb
          · simp [CallPhase.isSuccess] at ha
          · exact Or.inr hb
  | needInsert =>
      by_cases hem : hasEmail s u.Email = true
      · have hstep : callStep s u .needInsert =
            (.done (.error (parseError .uniqueViolation)), s) := by
          unfold callStep; rw [insertUser_dup hem]
        rw [hstep]
        refine ⟨hcount, ⟨rfl, hem⟩, hpb, fun h => ?_⟩
        rcases hsucc h with ha | hb
        · simp [CallPhase.isSuccess] at ha
        · exact Or.inr hb
      · have hemf : hasEmail s u.Email = false := by simpa using hem
        have hno : ∀ r ∈ s.rows, ¬ (r.Email = u.Email) := by
          intro r hr
          unfold hasEmail at hemf
          simp only [List.any_eq_false] at hemf
          simpa using hemf r hr
        have hsel1 : selectIdNameEmailByEmail
            ⟨s.rows ++ [{ ID := toString s.nextId, Name := u.Name, Email := u.Email,
                          Picture := "", OIDCUserId := u.OIDCUserId }], s.nextId + 1⟩ u.Email =
            some (projRow { ID := toString s.nextId, Name := u.Name, Email := u.Email,
                            Picture := "", OIDCUserId := u.OIDCUserId }) :=
          select_append_new s.rows (s.nextId + 1) _ u.Email hno rfl
        have hstep : callStep s u .needInsert =
            (.done (.ok (some (projRow { ID := toString s.nextId, Name := u.Name,
                                         Email := u.Email, Picture := "",
                                         OIDCUserId := u.OIDCUserId }))),
             ⟨s.rows ++ [{ ID := toString s.nextId, Name := u.Name, Email := u.Email,
                           Picture := "", OIDCUserId := u.OIDCUserId }], s.nextId + 1⟩) := by
          simp only [callStep, insertUser_ok hemf, hsel1]
        rw [hstep]
        refine ⟨?_, ?_, ?_, fun _ => Or.inl rfl⟩
        · rw [emailCount_append s.rows (s.nextId + 1) s.nextId]
          rw [hasEmail_false_emailCount hemf]
          simp
        · exact ⟨{ ID := toString s.nextId, Name := u.Name, Email := u.Email,
                   Picture := "", OIDCUserId := u.OIDCUserId },
                 by simp, rfl, rfl⟩
        · exact phaseInv_append _ _ _ _ _ hpb
  | done r0 =>
      exact ⟨hcount, hpa, hpb, hsucc⟩

/-- The joint invariant is preserved by either scheduler choice. -/
theorem Inv_stepTwo (e : String) (uA uB : User) (t : TwoCalls) (pick : Bool)
    (hA : uA.Email = e) (hB : uB.Email = e) (h : Inv e t) :
    Inv e (stepTwo uA uB t pick) := by
  obtain ⟨h1, h2, h3, h4⟩ := h
  cases pick with
  | true =>
      obtain ⟨c1, c2, c3, c4⟩ := Inv_core_step e uA t.store t.a t.b hA h1 h2 h3 h4
      exact ⟨c1, c2, c3, c4⟩
  | false =>
      obtain ⟨c1, c2, c3, c4⟩ :=
        Inv_core_step e uB t.store t.b t.a hB h1 h3 h2 (fun hh => (h4 hh).symm)
      exact ⟨c1, c3, c2, fun hh => (c4 hh).symm⟩

/-- The joint invariant is preserved by every schedule. -/
theorem Inv_runSched (e : String) (uA uB : User)
    (hA : uA.Email = e) (hB : uB.Email = e) :
    ∀ (sched : List Bool) (t : TwoCalls), Inv e t → Inv e (runSched uA uB t sched)
  | [], _, h => h
  | pick :: rest, t, h =>
      Inv_runSched e uA uB hA hB rest _ (Inv_stepTwo e uA uB t pick hA hB h)

/-! ## Claims about concurrent `FindOrCreateUser` calls -/

/-- C1 counterexample: a concrete execution in which the insert of a new
record fails with the uniqueness violation on email (call B raced call A
for the previously-unseen `a@x.com`): call B returns that violation,
wrapped by `parseError`, as an error to the caller — it does not re-read
and return the existing record, even though a record for that email exists
in the store at that point. -/
theorem runSched_loser_gets_violation_error :
    (runSched uAlice uBob ⟨⟨[], 0⟩, .start, .start⟩ raceSched).b =
      .done (.error (parseError .uniqueViolation)) ∧
    hasEmail (runSched uAlice uBob ⟨⟨[], 0⟩, .start, .start⟩ raceSched).store "a@x.com" = true := by
  decide

/-- C1 (amended): when the insert inside `FindOrCreateUser` fails with the
uniqueness violation on email (a racing call created the record after this
call's select missed), the violation is returned, wrapped by `parseError`,
as an error to the caller; the existing record is not re-read and the
store is left unchanged by this call. -/
theorem callStep_duplicate_insert_returns_error (s : Store) (u : User)
    (hdup : hasEmail s u.Email = true) :
    callStep s u .needInsert = (.done (.error (parseError .uniqueViolation)), s) := by
  unfold callStep
  rw [insertUser_dup hdup]

/-- C1 witness: the amended statement at a concrete store already holding
a record for `a@x.com`. -/
theorem callStep_duplicate_insert_returns_error_witness :
    hasEmail ⟨[⟨"0", "Alice", "a@x.com", "", "subA"⟩], 1⟩ uBob.Email = true ∧
    callStep ⟨[⟨"0", "Alice", "a@x.com", "", "subA"⟩], 1⟩ uBob .needInsert =
      (.done (.error (parseError .uniqueViolation)),
       ⟨[⟨"0", "Alice", "a@x.com", "", "subA"⟩], 1⟩) :=
  ⟨by decide,
   callStep_duplicate_insert_returns_error ⟨[⟨"0", "Alice", "a@x.com", "", "subA"⟩], 1⟩
     uBob (by decide)⟩

/-- C3 counterexample: under the racing schedule both concurrent calls for
the previously-unseen `a@x.com` complete and exactly one record with that
email exists, but it is not the case that both calls return successfully:
the loser fails instead of observing the winner's record. -/
theorem runSched_not_both_successful :
    (runSched uAlice uBob ⟨⟨[], 0⟩, .start, .start⟩ raceSched).a.isDone = true ∧
    (runSched uAlice uBob ⟨⟨[], 0⟩, .start, .start⟩ raceSched).b.isDone = true ∧
    emailCount (runSched uAlice uBob ⟨⟨[], 0⟩, .start, .start⟩ raceSched).store "a@x.com" = 1 ∧
    ¬ ((runSched uAlice uBob ⟨⟨[], 0⟩, .start, .start⟩ raceSched).a.isSuccess = true ∧
       (runSched uAlice uBob ⟨⟨[], 0⟩, .start, .start⟩ raceSched).b.isSuccess = true) := by
  decide

/-- C3 (amended): for any two interleaved `FindOrCreateUser` calls with
the same previously-unseen email, after both complete exactly one stored
record with that email exists and at least one call returns successfully;
each call either returns the projection of that single row or fails with
the uniqueness violation of its duplicate insert — the loser is not
guaranteed to observe the winner's record. -/
theorem concurrent_findOrCreate_single_row (uA uB : User) (s0 : Store) (e : String)
    (hA : uA.Email = e) (hB : uB.Email = e) (h0 : hasEmail s0 e = false)
    (sched : List Bool)
    (ha : (runSched uA uB ⟨s0, .start, .start⟩ sched).a.isDone = true)
    (_hb : (runSched uA uB ⟨s0, .start, .start⟩ sched).b.isDone = true) :
    emailCount (runSched uA uB ⟨s0, .start, .start⟩ sched).store e = 1 ∧
    ((runSched uA uB ⟨s0, .start, .start⟩ sched).a.isSuccess = true ∨
     (runSched uA uB ⟨s0, .start, .start⟩ sched).b.isSuccess = true) ∧
    phaseInv e (runSched uA uB ⟨s0, .start, .start⟩ sched).store
      (runSched uA uB ⟨s0, .start, .start⟩ sched).a ∧
    phaseInv e (runSched uA uB ⟨s0, .start, .start⟩ sched).store
      (runSched uA uB ⟨s0, .start, .start⟩ sched).b := by
  have hInv0 : Inv e ⟨s0, .start, .start⟩ := by
    refine ⟨?_, trivial, trivial, fun hh => ?_⟩
    · rw [hasEmail_false_emailCount h0]
      omega
    · rw [h0] at hh
      cases hh
  obtain ⟨h1, h2, h3, h4⟩ := Inv_runSched e uA uB hA hB sched _ hInv0
  obtain ⟨ra, hra⟩ := isDone_exists ha
  have hhas : hasEmail (runSched uA uB ⟨s0, .start, .start⟩ sched).store e = true := by
    rw [hra] at h2
    cases ra with
    | ok o =>
        cases o with
        | none => exact h2.elim
        | some u =>
            obtain ⟨r, hr, hre, -⟩ := h2
            exact hasEmail_of_mem hr hre
    | error err => exact h2.2
  have hpos := hasEmail_true_emailCount_pos hhas
  exact ⟨by omega, h4 hhas, h2, h3⟩

/-- C3 witness: the amended statement at the concrete racing schedule for
`a@x.com` from the empty store. -/
theorem concurrent_findOrCreate_single_row_witness :
    uAlice.Email = "a@x.com" ∧ uBob.Email = "a@x.com" ∧
    hasEmail ⟨[], 0⟩ "a@x.com" = false ∧
    (runSched uAlice uBob ⟨⟨[], 0⟩, .start, .start⟩ raceSched).a.isDone = true ∧
    (runSched uAlice uBob ⟨⟨[], 0⟩, .start, .start⟩ raceSched).b.isDone = true ∧
    (emailCount (runSched uAlice uBob ⟨⟨[], 0⟩, .start, .start⟩ raceSched).store "a@x.com" = 1 ∧
     ((runSched uAlice uBob ⟨⟨[], 0⟩, .start, .start⟩ raceSched).a.isSuccess = true ∨
      (runSched uAlice uBob ⟨⟨[], 0⟩, .start, .start⟩ raceSched).b.isSuccess = true) ∧
     phaseInv "a@x.com" (runSched uAlice uBob ⟨⟨[], 0⟩, .start, .start⟩ raceSched).store
       (runSched uAlice uBob ⟨⟨[], 0⟩, .start, .start⟩ raceSched).a ∧
     phaseInv "a@x.com" (runSched uAlice uBob ⟨⟨[], 0⟩, .start, .start⟩ raceSched).store
       (runSched uAlice uBob ⟨⟨[], 0⟩, .start, .start⟩ raceSched).b) :=
  ⟨rfl, rfl, by decide, by decide, by decide,
   concurrent_findOrCreate_single_row uAlice uBob ⟨[], 0⟩ "a@x.com" rfl rfl (by decide)
     raceSched (by decide) (by decide)⟩

end Appdoki
